import Mathlib

/-!
Verification development for the Reactive-Streaming-on-the-Edge repository.

The Rust sources are shallowly embedded: pure functions become Lean
functions, stateful handlers become explicit state-passing functions, and
code that can panic returns an `Option`.  64-bit floating point values are
modelled by the type `F` below: exact rationals extended with `nan` and the
two infinities.  The model keeps the IEEE-754 behaviour that matters for the
control flow of this program (NaN propagation and NaN comparisons being
false, division of zero by zero giving NaN) and idealises rounding: every
arithmetic result is exact.  Literals such as 8.6 are likewise taken at
their decimal value.  The f64 constant PI is kept bit-exact as the rational
`pi64` (the IEEE-754 double nearest to pi), since the power computation of
the rule evaluator multiplies by it.
-/

/-- `MotorFailure` from data_transfer_objects/src/lib.rs. -/
inductive MotorFailure where
  | ToolWearFailure : MotorFailure
  | HeatDissipationFailure : MotorFailure
  | PowerFailure : MotorFailure
  | OverstrainFailure : MotorFailure
  | RandomFailure : MotorFailure
deriving DecidableEq, Repr

/-- Model of an f64 value: exact rationals extended with NaN and infinities.
Rounding and overflow are idealised away; signed zero is collapsed to `val 0`. -/
inductive F where
  | nan : F
  | posInf : F
  | negInf : F
  | val (q : ℚ) : F
deriving DecidableEq, Repr

namespace F

/-- f64 negation. -/
def neg : F → F
  | nan => nan
  | posInf => negInf
  | negInf => posInf
  | val q => val (-q)

/-- f64 addition (exact, no rounding). -/
def add : F → F → F
  | nan, _ => nan
  | _, nan => nan
  | posInf, negInf => nan
  | negInf, posInf => nan
  | posInf, _ => posInf
  | _, posInf => posInf
  | negInf, _ => negInf
  | _, negInf => negInf
  | val a, val b => val (a + b)

/-- f64 subtraction, defined as in IEEE-754 via addition of the negation. -/
def sub (a b : F) : F := add a (neg b)

/-- f64 multiplication (exact, no rounding). -/
def mul : F → F → F
  | nan, _ => nan
  | _, nan => nan
  | posInf, posInf => posInf
  | posInf, negInf => negInf
  | negInf, posInf => negInf
  | negInf, negInf => posInf
  | posInf, val b => if b = 0 then nan else if 0 < b then posInf else negInf
  | negInf, val b => if b = 0 then nan else if 0 < b then negInf else posInf
  | val a, posInf => if a = 0 then nan else if 0 < a then posInf else negInf
  | val a, negInf => if a = 0 then nan else if 0 < a then negInf else posInf
  | val a, val b => val (a * b)

/-- f64 division (exact, no rounding; signed zero is not distinguished, so
division of a nonzero value by zero takes the sign of the numerator). -/
def div : F → F → F
  | nan, _ => nan
  | _, nan => nan
  | posInf, posInf => nan
  | posInf, negInf => nan
  | negInf, posInf => nan
  | negInf, negInf => nan
  | posInf, val b => if 0 ≤ b then posInf else negInf
  | negInf, val b => if 0 ≤ b then negInf else posInf
  | val _, posInf => val 0
  | val _, negInf => val 0
  | val a, val b =>
      if b = 0 then (if a = 0 then nan else if 0 < a then posInf else negInf)
      else val (a / b)

/-- f64 absolute value. -/
def abs : F → F
  | nan => nan
  | posInf => posInf
  | negInf => posInf
  | val q => val |q|

/-- f64 strict comparison; any comparison with NaN is false. -/
def blt : F → F → Bool
  | nan, _ => false
  | _, nan => false
  | posInf, _ => false
  | negInf, negInf => false
  | negInf, _ => true
  | val _, posInf => true
  | val _, negInf => false
  | val a, val b => decide (a < b)

/-- f64 non-strict comparison; any comparison with NaN is false. -/
def ble : F → F → Bool
  | nan, _ => false
  | _, nan => false
  | posInf, posInf => true
  | posInf, _ => false
  | negInf, _ => true
  | val _, posInf => true
  | val _, negInf => false
  | val a, val b => decide (a ≤ b)

@[simp] lemma neg_val (a : ℚ) : neg (val a) = val (-a) := rfl

@[simp] lemma add_val (a b : ℚ) : add (val a) (val b) = val (a + b) := rfl

@[simp] lemma sub_val (a b : ℚ) : sub (val a) (val b) = val (a - b) := by
  simp [sub, sub_eq_add_neg]

@[simp] lemma mul_val (a b : ℚ) : mul (val a) (val b) = val (a * b) := rfl

@[simp] lemma div_val (a b : ℚ) (h : b ≠ 0) : div (val a) (val b) = val (a / b) := by
  simp [div, h]

@[simp] lemma abs_val (a : ℚ) : abs (val a) = val |a| := rfl

@[simp] lemma blt_val (a b : ℚ) : blt (val a) (val b) = decide (a < b) := rfl

@[simp] lemma ble_val (a b : ℚ) : ble (val a) (val b) = decide (a ≤ b) := rfl

end F

/-- The exact rational value of the f64 constant `core::f64::consts::PI`
(the IEEE-754 double nearest to pi). -/
def pi64 : ℚ := 884279719003555 / 281474976710656

/-- `utils::rpm_to_rad` from src/utils/src/lib.rs: `rpm / 60.0 * PI * 2.0`. -/
def rpm_to_rad (rpm : F) : F :=
  F.mul (F.mul (F.div rpm (F.val 60)) (F.val pi64)) (F.val 2)

/-- `utils::relevant_data_indicates_failure` from src/utils/src/lib.rs
(lines 237-252): the shared rule evaluator over pre-computed
temperature difference, rotational speed, power and strain. -/
def relevant_data_indicates_failure (temp_diff rotational_speed power strain : F) :
    Option MotorFailure :=
  if (F.abs temp_diff).blt (F.val 8.6) && rotational_speed.blt (F.val 1380) then
    some MotorFailure.HeatDissipationFailure
  else if !((F.val 3500).ble power && power.ble (F.val 9000)) then
    some MotorFailure.PowerFailure
  else if (F.val 11000).blt strain then
    some MotorFailure.OverstrainFailure
  else
    none

/-- `utils::sensor_data_indicates_failure` from src/utils/src/lib.rs
(lines 220-234); `age` is the motor age in seconds (`age.as_secs_f64()`). -/
def sensor_data_indicates_failure (air_temperature process_temperature rotational_speed torque age : F) :
    Option MotorFailure :=
  relevant_data_indicates_failure
    (F.sub air_temperature process_temperature)
    rotational_speed
    (F.mul torque (rpm_to_rad rotational_speed))
    (F.mul age torque)

/-- C1: the shared rule evaluator, on finite inputs, returns HeatDissipation
iff |a − p| < 8.6 and r < 1380; otherwise Power iff the power
t · (r · 2·pi64 / 60) lies outside [3500, 9000]; otherwise Overstrain iff
g · t > 11000; otherwise no failure.  The four mutually exclusive cases give
in particular the tie-break order HeatDissipation > Power > Overstrain. -/
theorem c1_rule_evaluator_cases (a p r t g : ℚ) :
    (sensor_data_indicates_failure (F.val a) (F.val p) (F.val r) (F.val t) (F.val g) =
        some MotorFailure.HeatDissipationFailure ↔ (|a - p| < 8.6 ∧ r < 1380))
    ∧ (sensor_data_indicates_failure (F.val a) (F.val p) (F.val r) (F.val t) (F.val g) =
        some MotorFailure.PowerFailure ↔
        (¬(|a - p| < 8.6 ∧ r < 1380) ∧
          ¬(3500 ≤ t * (r * (2 * pi64) / 60) ∧ t * (r * (2 * pi64) / 60) ≤ 9000)))
    ∧ (sensor_data_indicates_failure (F.val a) (F.val p) (F.val r) (F.val t) (F.val g) =
        some MotorFailure.OverstrainFailure ↔
        (¬(|a - p| < 8.6 ∧ r < 1380) ∧
          (3500 ≤ t * (r * (2 * pi64) / 60) ∧ t * (r * (2 * pi64) / 60) ≤ 9000) ∧
          11000 < g * t))
    ∧ (sensor_data_indicates_failure (F.val a) (F.val p) (F.val r) (F.val t) (F.val g) =
        none ↔
        (¬(|a - p| < 8.6 ∧ r < 1380) ∧
          (3500 ≤ t * (r * (2 * pi64) / 60) ∧ t * (r * (2 * pi64) / 60) ≤ 9000) ∧
          ¬(11000 < g * t))) := by
  have hpw : t * (r / 60 * pi64 * 2) = t * (r * (2 * pi64) / 60) := by ring
  unfold sensor_data_indicates_failure relevant_data_indicates_failure rpm_to_rad
  rw [F.div_val r 60 (by norm_num)]
  simp only [F.sub_val, F.mul_val, F.abs_val, F.blt_val, F.ble_val, hpw]
  by_cases hA : |a - p| < 8.6 <;> by_cases hB : r < 1380 <;>
    by_cases hC : 3500 ≤ t * (r * (2 * pi64) / 60) <;>
    by_cases hD : t * (r * (2 * pi64) / 60) ≤ 9000 <;>
    by_cases hE : 11000 < g * t <;>
    simp [hA, hB, hC, hD, hE]

/-! ## ClientServer RPM (src/motor_monitor_cs) -/

/-- `SensorMessage` from data_transfer_objects/src/lib.rs.  The f32 reading
and the f64 timestamp are finite sensor values, modelled as rationals. -/
structure SensorMessage where
  reading : ℚ
  sensor_id : ℕ
  timestamp : ℚ
deriving DecidableEq, Repr

/-- `TimedSensorMessage` from motor_monitor_cs/src/main.rs: the reading of a
`SensorMessage` restamped with the arrival time (`utils::get_now_secs`). -/
structure TimedSensorMessage where
  timestamp : ℚ
  reading : ℚ
deriving DecidableEq, Repr

/-- `SlidingWindow` from motor_monitor_cs/src/sliding_window.rs.  Durations
and epoch instants are rationals measured in seconds. -/
structure SlidingWindow where
  window_size : ℚ
  elements : List TimedSensorMessage
deriving DecidableEq, Repr

namespace SlidingWindow

/-- `SlidingWindow::new`. -/
def new (window_size : ℚ) : SlidingWindow := ⟨window_size, []⟩

/-- `SlidingWindow::add`: push at the end of the vector. -/
def add (w : SlidingWindow) (element : TimedSensorMessage) : SlidingWindow :=
  { w with elements := w.elements ++ [element] }

/-- `SlidingWindow::get_window_average`: the sum of the readings divided by
the number of elements, with no emptiness guard — on an empty window this is
the f64 division 0.0 / 0.0. -/
def get_window_average (w : SlidingWindow) : F :=
  F.div (F.val ((w.elements.map (·.reading)).sum)) (F.val w.elements.length)

/-- `SlidingWindow::refresh_cache`: retain the elements whose timestamp is
strictly newer than `at_time - window_size`.  (In the source both sides are
`Duration`s; the subtraction panics when `at_time < window_size` and
`Duration::from_secs_f64` panics on a negative timestamp, so the function
returns only under those side conditions.) -/
def refresh_cache (w : SlidingWindow) (at_time : ℚ) : SlidingWindow :=
  { w with elements := w.elements.filter (fun m => at_time - w.window_size < m.timestamp) }

/-- `SlidingWindow::reset`. -/
def reset (w : SlidingWindow) : SlidingWindow := { w with elements := [] }

end SlidingWindow

/-- `refresh_cache` of motor_monitor/src/sliding_window.rs, the `time_t`
(integer seconds) variant of the same eviction:
`elements.retain(|m| m.timestamp > at_time - window_size)`. -/
def refresh_cache_int (window_size : ℤ) (at_time : ℤ) (elements : List (ℤ × ℚ)) :
    List (ℤ × ℚ) :=
  elements.filter (fun m => at_time - window_size < m.1)

/-- `MotorGroupSensorsBuffers` from
motor_monitor_cs/src/motor_sensor_group_buffers.rs. -/
structure MotorGroupSensorsBuffers where
  air_temperature_sensor : SlidingWindow
  process_temperature_sensor : SlidingWindow
  rotational_speed_sensor : SlidingWindow
  torque_sensor : SlidingWindow
  age : ℚ
deriving DecidableEq, Repr

namespace MotorGroupSensorsBuffers

/-- `MotorGroupSensorsBuffers::new` (`age` is the construction instant,
`utils::get_now_duration()`). -/
def new (window_size : ℚ) (now : ℚ) : MotorGroupSensorsBuffers :=
  ⟨SlidingWindow.new window_size, SlidingWindow.new window_size,
    SlidingWindow.new window_size, SlidingWindow.new window_size, now⟩

/-- `MotorGroupSensorsBuffers::refresh_caches`. -/
def refresh_caches (b : MotorGroupSensorsBuffers) (at_time : ℚ) : MotorGroupSensorsBuffers :=
  { b with
    air_temperature_sensor := b.air_temperature_sensor.refresh_cache at_time
    process_temperature_sensor := b.process_temperature_sensor.refresh_cache at_time
    rotational_speed_sensor := b.rotational_speed_sensor.refresh_cache at_time
    torque_sensor := b.torque_sensor.refresh_cache at_time }

/-- `MotorGroupSensorsBuffers::reset`: empty the four windows and restart the
age clock at the current instant. -/
def reset (b : MotorGroupSensorsBuffers) (now : ℚ) : MotorGroupSensorsBuffers :=
  ⟨b.air_temperature_sensor.reset, b.process_temperature_sensor.reset,
    b.rotational_speed_sensor.reset, b.torque_sensor.reset, now⟩

/-- `MotorGroupSensorsBuffers::is_some`: all four windows non-empty.  Defined
in the source but never called from `handle_message`. -/
def is_some (b : MotorGroupSensorsBuffers) : Bool :=
  decide (0 < b.air_temperature_sensor.elements.length) &&
  decide (0 < b.process_temperature_sensor.elements.length) &&
  decide (0 < b.rotational_speed_sensor.elements.length) &&
  decide (0 < b.torque_sensor.elements.length)

/-- The `Index`/`IndexMut` impl: buffer update at index 0..3, panic
(`none`) otherwise. -/
def setSensor (b : MotorGroupSensorsBuffers) (index : ℕ) (w : SlidingWindow) :
    Option MotorGroupSensorsBuffers :=
  match index with
  | 0 => some { b with air_temperature_sensor := w }
  | 1 => some { b with process_temperature_sensor := w }
  | 2 => some { b with rotational_speed_sensor := w }
  | 3 => some { b with torque_sensor := w }
  | _ => none

/-- The `Index` impl, read side. -/
def getSensor (b : MotorGroupSensorsBuffers) (index : ℕ) : Option SlidingWindow :=
  match index with
  | 0 => some b.air_temperature_sensor
  | 1 => some b.process_temperature_sensor
  | 2 => some b.rotational_speed_sensor
  | 3 => some b.torque_sensor
  | _ => none

end MotorGroupSensorsBuffers

/-- Modelled from the spec: `utils::rule_violated`, called from
motor_monitor_cs/src/rules_engine.rs and motor_monitor_sql/src/main.rs, is
not under src/ (the utils crate in src/ carries the same evaluator under the
name `sensor_data_indicates_failure`).  Section 4.4 of the spec states that
all RPMs share a single pure evaluator of the four averaged readings and the
motor age, which is what src/utils/src/lib.rs implements; `age` is a
`Duration`, converted to seconds. -/
def rule_violated (air_temperature process_temperature rotational_speed torque : F)
    (age : ℚ) : Option MotorFailure :=
  sensor_data_indicates_failure air_temperature process_temperature rotational_speed
    torque (F.val age)

/-- `rules_engine::violated_rule` from motor_monitor_cs/src/rules_engine.rs:
average the four windows (no emptiness guard) and evaluate the shared rule
with age = now − buffers.age. -/
def violated_rule (motor_group_buffers : MotorGroupSensorsBuffers) (now : ℚ) :
    Option MotorFailure :=
  rule_violated
    motor_group_buffers.air_temperature_sensor.get_window_average
    motor_group_buffers.process_temperature_sensor.get_window_average
    motor_group_buffers.rotational_speed_sensor.get_window_average
    motor_group_buffers.torque_sensor.get_window_average
    (now - motor_group_buffers.age)

/-- `Alert` from data_transfer_objects/src/lib.rs. -/
structure Alert where
  time : ℚ
  motor_id : ℕ
  failure : MotorFailure
deriving DecidableEq, Repr

/-- The motor-group index computed by `handle_message` in
motor_monitor_cs/src/main.rs line 252: `message.sensor_id.shr(u32::BITS / 2)`,
i.e. a right shift by 16. -/
def cs_motor_group_id (sensor_id : ℕ) : ℕ := sensor_id / 2 ^ 16

/-- The sensor index computed by `handle_message` in
motor_monitor_cs/src/main.rs line 253: `message.sensor_id.bitand(0xFFFF)`. -/
def cs_sensor_index (sensor_id : ℕ) : ℕ := sensor_id % 2 ^ 16

/-- `add_message_to_sensor_buffer` from motor_monitor_cs/src/main.rs:
index the motor group by the sensor index (panicking for indices above 3)
and push the arrival-restamped reading. -/
def add_message_to_sensor_buffer (message : SensorMessage) (sensor_id : ℕ)
    (motor_group : MotorGroupSensorsBuffers) (now : ℚ) :
    Option MotorGroupSensorsBuffers :=
  (motor_group.getSensor sensor_id).bind fun w =>
    motor_group.setSensor sensor_id (w.add ⟨now, message.reading⟩)

/-- The state `handle_message` (motor_monitor_cs/src/main.rs lines 246-269)
passes to `rules_engine::violated_rule`: the addressed motor group after the
append and the cache refresh.  `none` models the panics (motor id out of
range, sensor index above 3). -/
def cs_updated_buffers (buffers : List MotorGroupSensorsBuffers)
    (message : SensorMessage) (now : ℚ) : Option (ℕ × MotorGroupSensorsBuffers) :=
  let motor_group_id := cs_motor_group_id message.sensor_id
  let sensor_id := cs_sensor_index message.sensor_id
  (buffers.get? motor_group_id).bind fun motor_group =>
    (add_message_to_sensor_buffer message sensor_id motor_group now).map fun b =>
      (motor_group_id, b.refresh_caches now)

/-- `handle_message` from motor_monitor_cs/src/main.rs lines 246-269: append
the message, refresh the caches, evaluate the rule unconditionally, and on a
positive result emit an alert and reset the motor's buffers. -/
def handle_message (buffers : List MotorGroupSensorsBuffers)
    (message : SensorMessage) (now start_time : ℚ) :
    Option (List MotorGroupSensorsBuffers × Option Alert) :=
  (cs_updated_buffers buffers message now).map fun p =>
    match violated_rule p.2 now with
    | some rule =>
        (buffers.set p.1 (p.2.reset now), some ⟨now - start_time, p.1, rule⟩)
    | none => (buffers.set p.1 p.2, none)

/-- C2: the claim says the empty-window average is guarded and the rule is
not evaluated.  In motor_monitor_cs the guard does not exist:
`get_window_average` divides by the element count unconditionally and
`handle_message` calls `violated_rule` on every message.  Starting from a
motor whose four windows are all empty, processing a single air-temperature
message leaves three windows empty; their averages are NaN, the NaN power
fails the range test, and a PowerFailure alert is emitted — a failure
verdict produced from empty-window averages. -/
theorem c2_empty_window_average_not_guarded :
    (MotorGroupSensorsBuffers.new 3 0).air_temperature_sensor.elements = [] ∧
    (MotorGroupSensorsBuffers.new 3 0).process_temperature_sensor.elements = [] ∧
    (MotorGroupSensorsBuffers.new 3 0).rotational_speed_sensor.elements = [] ∧
    (MotorGroupSensorsBuffers.new 3 0).torque_sensor.elements = [] ∧
    (SlidingWindow.new 3).get_window_average = F.nan ∧
    handle_message [MotorGroupSensorsBuffers.new 3 0] ⟨300, 0, 100⟩ 100 0 =
      some ([MotorGroupSensorsBuffers.new 3 100],
        some ⟨100, 0, MotorFailure.PowerFailure⟩) := by
  norm_num [handle_message, cs_updated_buffers, cs_motor_group_id, cs_sensor_index,
    add_message_to_sensor_buffer, MotorGroupSensorsBuffers.new,
    MotorGroupSensorsBuffers.getSensor, MotorGroupSensorsBuffers.setSensor,
    MotorGroupSensorsBuffers.refresh_caches, MotorGroupSensorsBuffers.reset,
    SlidingWindow.new, SlidingWindow.add, SlidingWindow.refresh_cache,
    SlidingWindow.reset, SlidingWindow.get_window_average, violated_rule, rule_violated,
    sensor_data_indicates_failure, relevant_data_indicates_failure, rpm_to_rad,
    F.div, F.mul, F.sub, F.add, F.neg, F.abs, F.blt, F.ble, List.filter]

/-- C3: the claim says the evaluator is never invoked while one of the four
windows is empty.  `handle_message` factors as `cs_updated_buffers` followed
by an unconditional application of `violated_rule` to that state; here the
state at evaluation time has empty rotational-speed and torque windows, the
evaluation runs on it, and even produces a PowerFailure alert. -/
theorem c3_evaluator_invoked_with_empty_window :
    (cs_updated_buffers [MotorGroupSensorsBuffers.new 5 0] ⟨7, 1, 50⟩ 50).map
        (fun p => (p.2.rotational_speed_sensor.elements, p.2.torque_sensor.elements)) =
      some ([], []) ∧
    (cs_updated_buffers [MotorGroupSensorsBuffers.new 5 0] ⟨7, 1, 50⟩ 50).map
        (fun p => violated_rule p.2 50) = some (some MotorFailure.PowerFailure) ∧
    handle_message [MotorGroupSensorsBuffers.new 5 0] ⟨7, 1, 50⟩ 50 0 =
      some ([MotorGroupSensorsBuffers.new 5 50], some ⟨50, 0, MotorFailure.PowerFailure⟩) := by
  norm_num [handle_message, cs_updated_buffers, cs_motor_group_id, cs_sensor_index,
    add_message_to_sensor_buffer, MotorGroupSensorsBuffers.new,
    MotorGroupSensorsBuffers.getSensor, MotorGroupSensorsBuffers.setSensor,
    MotorGroupSensorsBuffers.refresh_caches, MotorGroupSensorsBuffers.reset,
    SlidingWindow.new, SlidingWindow.add, SlidingWindow.refresh_cache,
    SlidingWindow.reset, SlidingWindow.get_window_average, violated_rule, rule_violated,
    sensor_data_indicates_failure, relevant_data_indicates_failure, rpm_to_rad,
    F.div, F.mul, F.sub, F.add, F.neg, F.abs, F.blt, F.ble, List.filter]

/-- C7: the claim says the consumer locates the motor-group buffer at index
sensor_id >> 2 and the window at index sensor_id & 3.  The code uses
sensor_id >> 16 and sensor_id & 0xFFFF.  For sensor_id = 4 — motor 1,
air-temperature sensor under the producers' encoding motor_id × 4 +
sensor_index — the claim expects buffer 1, window 0 (= 4 / 4, 4 % 4), but
the code computes buffer 0 and window 4, and `handle_message` panics on the
out-of-range window index (modelled as `none`). -/
theorem c7_consumer_indexing_mismatch :
    cs_motor_group_id (1 * 4 + 0) = 0 ∧
    cs_sensor_index (1 * 4 + 0) = 4 ∧
    (1 * 4 + 0) / 4 = 1 ∧
    (1 * 4 + 0) % 4 = 0 ∧
    handle_message [MotorGroupSensorsBuffers.new 3 0, MotorGroupSensorsBuffers.new 3 0]
      ⟨10, 1 * 4 + 0, 60⟩ 60 0 = none := by
  norm_num [handle_message, cs_updated_buffers, cs_motor_group_id, cs_sensor_index,
    add_message_to_sensor_buffer, MotorGroupSensorsBuffers.new,
    MotorGroupSensorsBuffers.getSensor, MotorGroupSensorsBuffers.setSensor,
    SlidingWindow.new]

/-- C9: eviction invariant.  After `refresh_cache now` returns (for the
Duration variant this needs window_size ≤ now and non-negative timestamps,
otherwise the source panics), no remaining entry has a timestamp older than
now − window_size; likewise for the integer-seconds variant of
motor_monitor/src/sliding_window.rs. -/
theorem c9_eviction_invariant :
    (∀ (w : SlidingWindow) (now : ℚ), w.window_size ≤ now →
      (∀ m ∈ w.elements, (0 : ℚ) ≤ m.timestamp) →
      ∀ m ∈ (w.refresh_cache now).elements, ¬(m.timestamp < now - w.window_size))
    ∧ (∀ (window_size at_time : ℤ) (elements : List (ℤ × ℚ)),
      ∀ e ∈ refresh_cache_int window_size at_time elements,
        ¬(e.1 < at_time - window_size)) := by
  constructor
  · intro w now _ _ m hm
    simp only [SlidingWindow.refresh_cache, List.mem_filter, decide_eq_true_eq] at hm
    exact not_lt.mpr (le_of_lt hm.2)
  · intro window_size at_time elements e he
    simp only [refresh_cache_int, List.mem_filter, decide_eq_true_eq] at he
    exact not_lt.mpr (le_of_lt he.2)

/-- Witness for C9 at a concrete window: the surviving entry of a refresh at
time 100 over a window of size 3 is not older than 97. -/
theorem c9_eviction_invariant_witness :
    ¬((⟨100, 5⟩ : TimedSensorMessage).timestamp <
        100 - (SlidingWindow.mk 3 [⟨100, 5⟩]).window_size) :=
  c9_eviction_invariant.1 ⟨3, [⟨100, 5⟩]⟩ 100 (by norm_num)
    (by intro m hm; simp at hm; simp [hm])
    ⟨100, 5⟩ (by norm_num [SlidingWindow.refresh_cache, List.filter])

/-! ## ObjectOriented RPM (src/motor_monitor_oo) -/

/-- `SensorAverage` from motor_monitor_oo/src/sensor.rs. -/
structure SensorAverage where
  average : F
  number_of_values : ℕ
  sensor_id : ℕ
  timestamp : ℚ
deriving DecidableEq, Repr

/-- `MotorMonitor` from motor_monitor_oo/src/monitor.rs: one Option slot for
the latest average of each of the four sensors.  The struct holds no age. -/
structure MotorMonitor where
  air_temperature : Option SensorAverage
  process_temperature : Option SensorAverage
  rotational_speed : Option SensorAverage
  torque : Option SensorAverage
deriving DecidableEq, Repr

/-- The slot update of `MotorMonitor::run` (monitor.rs lines 41-48):
store the average at slot `sensor_id & 3`.  The index is always 0..3, so the
panicking arm of the source match is unreachable. -/
def oo_update_slot (st : MotorMonitor) (sensor_average : SensorAverage) : MotorMonitor :=
  if sensor_average.sensor_id % 4 = 0 then { st with air_temperature := some sensor_average }
  else if sensor_average.sensor_id % 4 = 1 then
    { st with process_temperature := some sensor_average }
  else if sensor_average.sensor_id % 4 = 2 then
    { st with rotational_speed := some sensor_average }
  else { st with torque := some sensor_average }

/-- The evaluation step of `MotorMonitor::run` (monitor.rs lines 49-92):
when all four slots are present, call the evaluator (the missing
`utils::averages_indicate_failure`, taken as a parameter here) on the four
averages and the mean sample count; on a positive result emit an `Alert`
timed at the newest of the four averages and clear the four slots.  No age
is reset — the state has none. -/
def oo_evaluate (eval : F → F → F → F → ℕ → Option MotorFailure)
    (st : MotorMonitor) (motor_id : ℕ) : MotorMonitor × Option Alert :=
  match st.air_temperature, st.process_temperature, st.rotational_speed, st.torque with
  | some a, some p, some r, some t =>
      let avg_number_of_values :=
        (a.number_of_values + p.number_of_values + r.number_of_values +
          t.number_of_values) / 4
      match eval a.average p.average r.average t.average avg_number_of_values with
      | some failure =>
          (⟨none, none, none, none⟩,
            some ⟨max (max (max a.timestamp p.timestamp) r.timestamp) t.timestamp,
              motor_id, failure⟩)
      | none => (st, none)
  | _, _, _, _ => (st, none)

/-- One iteration of `MotorMonitor::run` on a received `SensorAverage`. -/
def oo_handle_sensor_average (eval : F → F → F → F → ℕ → Option MotorFailure)
    (st : MotorMonitor) (sensor_average : SensorAverage) : MotorMonitor × Option Alert :=
  oo_evaluate eval (oo_update_slot st sensor_average) (sensor_average.sensor_id / 4)

/-! ## ReactiveStreaming RPM (src/motor_monitor_rx) -/

/-- `TimedSensorMessage` from motor_monitor_rx/src/main.rs (f64 reading). -/
structure RxTimedSensorMessage where
  timestamp : ℚ
  reading : F
  sensor_id : ℕ
deriving DecidableEq, Repr

/-- The repeating hop task of the sliding-window operator
(motor_monitor_rx/src/sliding_window.rs lines 82-103): if the buffer is
non-empty, evict every element with timestamp + window_size < now and emit a
copy of the surviving buffer; if the buffer is empty, do nothing and emit
nothing.  Returns (buffer after the tick, emission of the tick). -/
def rx_hop (window_size now : ℚ) (buffer : List RxTimedSensorMessage) :
    List RxTimedSensorMessage × Option (List RxTimedSensorMessage) :=
  if buffer.isEmpty then (buffer, none)
  else
    let buffer := buffer.filter (fun m => ¬(m.timestamp + window_size < now))
    (buffer, some buffer)

/-- `MotorData` from motor_monitor_rx/src/main.rs. -/
structure MotorData where
  air_temperature_data : Option RxTimedSensorMessage
  process_temperature_data : Option RxTimedSensorMessage
  rotational_speed_data : Option RxTimedSensorMessage
  torque_data : Option RxTimedSensorMessage
deriving DecidableEq, Repr

/-- `MotorData::contains_all_data`. -/
def MotorData.contains_all_data (md : MotorData) : Bool :=
  md.air_temperature_data.isSome && md.process_temperature_data.isSome &&
  md.rotational_speed_data.isSome && md.torque_data.isSome

/-- `violated_rule` from motor_monitor_rx/src/main.rs lines 294-337: return
`none` unless all four slots are present, then evaluate the rule on the four
averaged readings with age = now − motor_age. -/
def rx_violated_rule (sensor_average_readings : MotorData) (motor_age now : ℚ) :
    Option MotorFailure :=
  match sensor_average_readings.air_temperature_data,
      sensor_average_readings.process_temperature_data,
      sensor_average_readings.rotational_speed_data,
      sensor_average_readings.torque_data with
  | some air, some process, some rot, some torque =>
      let rotational_speed_in_rad := rpm_to_rad rot.reading
      let age := now - motor_age
      if (F.abs (F.sub air.reading process.reading)).blt (F.val 8.6) &&
          rot.reading.blt (F.val 1380) then
        some MotorFailure.HeatDissipationFailure
      else if (F.mul torque.reading rotational_speed_in_rad).blt (F.val 3500) ||
          (F.val 9000).blt (F.mul torque.reading rotational_speed_in_rad) then
        some MotorFailure.PowerFailure
      else if (F.val 11000).blt (F.mul (F.val age) torque.reading) then
        some MotorFailure.OverstrainFailure
      else none
  | _, _, _, _ => none

/-- The per-motor tail of the reactive graph (motor_monitor_rx/src/main.rs
lines 264-275): evaluate the rule against the motor's shared age; on a
positive result set the motor's age cell to now and produce the alert.
Returns (the motor age after the step, the alert). -/
def rx_process_motor_data (md : MotorData) (motor_id : ℕ)
    (motor_age now start_time : ℚ) : ℚ × Option Alert :=
  match rx_violated_rule md motor_age now with
  | some violated => (now, some ⟨now - start_time, motor_id, violated⟩)
  | none => (motor_age, none)

/-- The group_by(sensor_id) → average → map stage of the reactive graph for
one emitted window (motor_monitor_rx/src/main.rs lines 224-240): the
arithmetic mean of the readings of the window elements sharing `sensor_id`,
restamped at the emission instant. -/
def rx_sensor_average (window : List RxTimedSensorMessage) (sensor_id : ℕ)
    (now : ℚ) : RxTimedSensorMessage :=
  let group := window.filter (fun m => m.sensor_id = sensor_id)
  ⟨now, F.div (group.foldl (fun acc m => F.add acc m.reading) (F.val 0))
      (F.val group.length), sensor_id⟩

/-- The reduce into `MotorData` (motor_monitor_rx/src/main.rs lines
246-253): store the per-sensor average at slot `get_sensor_id` =
sensor_id & 0xFFFF, panicking (`none`) above 3. -/
def rx_assign_motor_data (md : MotorData) (m : RxTimedSensorMessage) : Option MotorData :=
  match m.sensor_id % 2 ^ 16 with
  | 0 => some { md with air_temperature_data := some m }
  | 1 => some { md with process_temperature_data := some m }
  | 2 => some { md with rotational_speed_data := some m }
  | 3 => some { md with torque_data := some m }
  | _ => none

/-- The per-window inner pipeline of the reactive graph specialized to one
motor group: per-sensor averages of the window are reduced into a
`MotorData` (each sensor id writes its own slot, so repeated ids re-assign
the identical group average). -/
def rx_window_motor_data (window : List RxTimedSensorMessage) (now : ℚ) :
    Option MotorData :=
  window.foldlM
    (fun md m => rx_assign_motor_data md (rx_sensor_average window m.sensor_id now))
    ⟨none, none, none, none⟩

/-- One emitted window end-to-end for one motor: averaging, slot reduction,
rule evaluation, age update and alert production. -/
def rx_window_pipeline (window : List RxTimedSensorMessage) (motor_id : ℕ)
    (motor_age now start_time : ℚ) : Option (ℚ × Option Alert) :=
  (rx_window_motor_data window now).map
    (fun md => rx_process_motor_data md motor_id motor_age now start_time)

/-- C6: the claim says the sliding-window operator emits on every hop tick
even when nothing arrived.  At a tick where the buffer is empty the hop task
emits nothing at all: the guard `!buffer.is_empty()` skips the emission, so
a motor whose sensors fell silent beyond the window stops being evaluated. -/
theorem c6_no_emission_on_empty_buffer :
    rx_hop 3 100 [] = ([], none) := rfl

/-- C6 amended: the hop task emits iff its buffer is non-empty at the start
of the tick; in that case the emission is the post-eviction snapshot (which
still happens when no new element arrived since the previous hop, and which
may even be the empty window when the eviction drains the buffer during the
tick, as the last conjunct shows concretely). -/
theorem c6_amended_hop_emission_iff_nonempty (window_size now : ℚ)
    (buffer : List RxTimedSensorMessage) :
    ((rx_hop window_size now buffer).2.isSome ↔ buffer ≠ [])
    ∧ (buffer ≠ [] → (rx_hop window_size now buffer).2 =
        some (buffer.filter (fun m => ¬(m.timestamp + window_size < now))))
    ∧ (rx_hop 3 100 [⟨1, F.val 5, 0⟩]).2 = some [] := by
  refine ⟨?_, ?_, ?_⟩
  · by_cases h : buffer = [] <;> simp [rx_hop, h]
  · intro h; simp [rx_hop, h]
  · norm_num [rx_hop, List.filter]

/-- Witness for the amended C6 at a concrete buffer: a tick at time 101 over
a window of size 3 holding one element stamped 100 emits that element. -/
theorem c6_amended_witness :
    (rx_hop 3 101 [⟨100, F.val 2, 0⟩]).2 = some [⟨100, F.val 2, 0⟩] := by
  have h := (c6_amended_hop_emission_iff_nonempty 3 101 [⟨100, F.val 2, 0⟩]).2.1
    (by simp)
  rw [h]
  norm_num [List.filter]

/-- C4 counterexample: in the ReactiveStreaming RPM an emitted alert does not
reset the motor's window state.  A window holding fresh samples of all four
sensors of motor 0 passes a hop at time 101 unchanged and non-empty, and the
per-window pipeline on that very window emits a HeatDissipation alert (and
resets only the age, to 101): the per-motor state following the emitted
alert still holds every sample, so the next evaluation does not start from a
fresh set of samples. -/
theorem c4_rx_window_not_cleared_after_alert :
    rx_hop 3 101 [⟨100, F.val 300, 0⟩, ⟨100, F.val 300, 1⟩,
        ⟨100, F.val 1000, 2⟩, ⟨100, F.val 40, 3⟩] =
      ([⟨100, F.val 300, 0⟩, ⟨100, F.val 300, 1⟩,
        ⟨100, F.val 1000, 2⟩, ⟨100, F.val 40, 3⟩],
       some [⟨100, F.val 300, 0⟩, ⟨100, F.val 300, 1⟩,
        ⟨100, F.val 1000, 2⟩, ⟨100, F.val 40, 3⟩])
    ∧ ([⟨100, F.val 300, 0⟩, ⟨100, F.val 300, 1⟩,
        ⟨100, F.val 1000, 2⟩, ⟨100, F.val 40, 3⟩] : List RxTimedSensorMessage) ≠ []
    ∧ rx_window_pipeline [⟨100, F.val 300, 0⟩, ⟨100, F.val 300, 1⟩,
        ⟨100, F.val 1000, 2⟩, ⟨100, F.val 40, 3⟩] 0 100 101 100 =
      some (101, some ⟨1, 0, MotorFailure.HeatDissipationFailure⟩) := by
  refine ⟨?_, by simp, ?_⟩
  · norm_num [rx_hop, List.filter]
  · norm_num [rx_window_pipeline, rx_window_motor_data, List.foldlM,
      rx_assign_motor_data, rx_sensor_average, List.filter,
      rx_process_motor_data, rx_violated_rule, rpm_to_rad,
      F.div, F.mul, F.sub, F.add, F.neg, F.abs, F.blt, F.ble]

/-- C4 amended: after a positive rule evaluation and alert emission, in
ClientServer `MotorGroupSensorsBuffers::reset` empties the four windows and
sets the age to the emission instant; in ObjectOriented the four average
slots are cleared but the monitor state holds no age to restart; in
ReactiveStreaming the motor's shared age cell is set to the emission
instant (while the window operator's buffer is untouched by the alert, as
the counterexample shows). -/
theorem c4_amended_reset_semantics :
    (∀ (b : MotorGroupSensorsBuffers) (now : ℚ),
      (b.reset now).air_temperature_sensor.elements = [] ∧
      (b.reset now).process_temperature_sensor.elements = [] ∧
      (b.reset now).rotational_speed_sensor.elements = [] ∧
      (b.reset now).torque_sensor.elements = [] ∧
      (b.reset now).age = now)
    ∧ (∀ (eval : F → F → F → F → ℕ → Option MotorFailure) (st : MotorMonitor)
        (sa : SensorAverage) (st' : MotorMonitor) (al : Alert),
        oo_handle_sensor_average eval st sa = (st', some al) →
          st'.air_temperature = none ∧ st'.process_temperature = none ∧
          st'.rotational_speed = none ∧ st'.torque = none)
    ∧ (∀ (md : MotorData) (motor_id : ℕ) (motor_age now start_time : ℚ) (al : Alert),
        (rx_process_motor_data md motor_id motor_age now start_time).2 = some al →
          (rx_process_motor_data md motor_id motor_age now start_time).1 = now) := by
  refine ⟨?_, ?_, ?_⟩
  · intro b now
    exact ⟨rfl, rfl, rfl, rfl, rfl⟩
  · intro eval st sa st' al h
    unfold oo_handle_sensor_average oo_evaluate at h
    split at h
    · dsimp only at h
      split at h
      · rw [Prod.mk.injEq] at h
        rw [← h.1]
        exact ⟨rfl, rfl, rfl, rfl⟩
      · rw [Prod.mk.injEq] at h
        exact absurd h.2 (by simp)
    · rw [Prod.mk.injEq] at h
      exact absurd h.2 (by simp)
  · intro md motor_id motor_age now start_time al h
    unfold rx_process_motor_data at h ⊢
    split at h
    · simp_all [rx_process_motor_data]
    · simp_all

/-- Witness for the amended C4 at concrete inputs: a ClientServer reset at
instant 7, the cleared ObjectOriented state after an alert, and the
ReactiveStreaming age cell set to the emission instant 101 after a
HeatDissipation alert. -/
theorem c4_amended_witness :
    ((MotorGroupSensorsBuffers.new 3 0).reset 7).age = 7
    ∧ (⟨none, none, none, none⟩ : MotorMonitor).torque = none
    ∧ (rx_process_motor_data
        ⟨some ⟨101, F.val 300, 0⟩, some ⟨101, F.val 300, 1⟩,
          some ⟨101, F.val 1000, 2⟩, some ⟨101, F.val 40, 3⟩⟩
        0 100 101 100).1 = 101 := by
  refine ⟨(c4_amended_reset_semantics.1 (MotorGroupSensorsBuffers.new 3 0) 7).2.2.2.2, ?_, ?_⟩
  · exact (c4_amended_reset_semantics.2.1
      (fun _ _ _ _ _ => some MotorFailure.HeatDissipationFailure)
      ⟨some ⟨F.val 1, 1, 0, 0⟩, some ⟨F.val 1, 1, 1, 0⟩, some ⟨F.val 1, 1, 2, 0⟩, none⟩
      ⟨F.val 2, 1, 3, 5⟩ ⟨none, none, none, none⟩
      ⟨5, 0, MotorFailure.HeatDissipationFailure⟩
      (by norm_num [oo_handle_sensor_average, oo_update_slot, oo_evaluate])).2.2.2
  · exact c4_amended_reset_semantics.2.2
      ⟨some ⟨101, F.val 300, 0⟩, some ⟨101, F.val 300, 1⟩,
        some ⟨101, F.val 1000, 2⟩, some ⟨101, F.val 40, 3⟩⟩
      0 100 101 100 ⟨1, 0, MotorFailure.HeatDissipationFailure⟩
      (by norm_num [rx_process_motor_data, rx_violated_rule, rpm_to_rad,
        F.div, F.mul, F.sub, F.add, F.neg, F.abs, F.blt, F.ble])

/-! ## Oracle validator (src/test_driver/src/validator.rs) -/

/-- Modelled from the spec: `utils::averages_indicate_failure` is called
from test_driver/src/validator.rs and motor_monitor_oo/src/monitor.rs but
its body is not under src/.  Spec section 4.7 says the oracle calls the same
rule evaluator as the monitor (section 4.4), which src/utils/src/lib.rs
implements as `sensor_data_indicates_failure`; the only age-like datum the
callers pass is the sample count, and at the 1 s sampling cadence of the
spec's end-to-end scenarios the sample count is the age in seconds, so the
wear term uses `number_of_values` as the age. -/
def averages_indicate_failure (air_temperature process_temperature rotational_speed torque : F)
    (number_of_values : ℕ) : Option MotorFailure :=
  sensor_data_indicates_failure air_temperature process_temperature rotational_speed
    torque (F.val number_of_values)

/-- `get_average_value` from test_driver/src/validator.rs lines 147-153:
sum the readings at indices i + 1 for i from max(0, position − window_size)
to position − 1, then divide by min(position, window_size) — with no guard,
so at position 0 this is the f64 division 0.0 / 0.  Every call from
`get_motor_alerts` keeps the indices i + 1 ≤ position < buffer length, so
the out-of-range default of the model is never read. -/
def get_average_value (position : ℕ) (window_size : ℕ) (buffer : List (ℚ × ℚ)) : F :=
  let lo := position - min position window_size
  let accumulator : ℚ :=
    (List.range' lo (position - lo)).foldl (fun a i => a + (buffer.getD (i + 1) (0, 0)).2) 0
  F.div (F.val accumulator) (F.val (min position window_size))

/-- The loop body of `get_motor_alerts` (test_driver/src/validator.rs lines
65-84) at simulated step i: the four reference window averages are fed to
the evaluator together with the constant window size, and a positive result
becomes an expected `Alert` timed at the step's air-temperature sample. -/
def oracle_step (motor_id : ℕ) (b0 b1 b2 b3 : List (ℚ × ℚ)) (window_size : ℕ)
    (i : ℕ) : Option Alert :=
  (averages_indicate_failure
      (get_average_value i window_size b0)
      (get_average_value i window_size b1)
      (get_average_value i window_size b2)
      (get_average_value i window_size b3)
      window_size).map
    (fun f => ⟨(b0.getD i (0, 0)).1, motor_id, f⟩)

/-- Push an optional alert at the end of the accumulated list (the body of
the source loop's `if let Some(motor_failure) = ... { alerts.push(...) }`). -/
def pushOpt {β : Type} (alerts : List β) (o : Option β) : List β :=
  match o with
  | some a => alerts ++ [a]
  | none => alerts

/-- `get_motor_alerts` from test_driver/src/validator.rs lines 59-86: iterate
the simulated steps in order, pushing an expected alert at every positive
evaluation.  No per-motor age exists and nothing is reset. -/
def get_motor_alerts (motor_id : ℕ) (b0 b1 b2 b3 : List (ℚ × ℚ))
    (window_size : ℕ) : List Alert :=
  (List.range b0.length).foldl
    (fun alerts i => pushOpt alerts (oracle_step motor_id b0 b1 b2 b3 window_size i)) []

lemma foldl_push_eq_filterMap {α β : Type} (f : α → Option β) (l : List α)
    (acc : List β) :
    l.foldl (fun alerts i => pushOpt alerts (f i)) acc = acc ++ l.filterMap f := by
  induction l generalizing acc with
  | nil => simp
  | cons x xs ih =>
    rw [List.foldl_cons, ih]
    cases hfx : f x <;> simp [pushOpt, hfx, List.filterMap_cons]

lemma get_motor_alerts_eq_filterMap (motor_id : ℕ) (b0 b1 b2 b3 : List (ℚ × ℚ))
    (window_size : ℕ) :
    get_motor_alerts motor_id b0 b1 b2 b3 window_size =
      (List.range b0.length).filterMap (oracle_step motor_id b0 b1 b2 b3 window_size) := by
  unfold get_motor_alerts
  rw [foldl_push_eq_filterMap (oracle_step motor_id b0 b1 b2 b3 window_size)
    (List.range b0.length) []]
  rw [List.nil_append]

lemma get_average_value_zero (window_size : ℕ) (buffer : List (ℚ × ℚ)) :
    get_average_value 0 window_size buffer = F.nan := by
  simp [get_average_value, F.div]

lemma averages_indicate_failure_nan (n : ℕ) :
    averages_indicate_failure F.nan F.nan F.nan F.nan n =
      some MotorFailure.PowerFailure := rfl

/-- C10: the oracle's reference average divides by min(position, window_size)
with no guard: at position 0 it computes 0.0 / 0 and returns NaN for every
buffer; the oracle's step 0 therefore feeds NaN into the rule evaluation for
every motor, and (NaN failing the power range test) the very first simulated
step of every motor is recorded as a PowerFailure alert instead of being
treated as no datum. -/
theorem c10_first_step_average_is_nan :
    (∀ (window_size : ℕ) (buffer : List (ℚ × ℚ)),
      get_average_value 0 window_size buffer = F.nan)
    ∧ (∀ (motor_id : ℕ) (b0 b1 b2 b3 : List (ℚ × ℚ)) (window_size : ℕ),
      oracle_step motor_id b0 b1 b2 b3 window_size 0 =
        (averages_indicate_failure F.nan F.nan F.nan F.nan window_size).map
          (fun f => ⟨(b0.getD 0 (0, 0)).1, motor_id, f⟩))
    ∧ (∀ (motor_id : ℕ) (b0 b1 b2 b3 : List (ℚ × ℚ)) (window_size : ℕ), b0 ≠ [] →
      (get_motor_alerts motor_id b0 b1 b2 b3 window_size).head? =
        some ⟨(b0.headD (0, 0)).1, motor_id, MotorFailure.PowerFailure⟩) := by
  refine ⟨get_average_value_zero, ?_, ?_⟩
  · intro motor_id b0 b1 b2 b3 window_size
    simp [oracle_step, get_average_value_zero]
  · intro motor_id b0 b1 b2 b3 window_size h
    obtain ⟨hd, tl, rfl⟩ := List.exists_cons_of_ne_nil h
    rw [get_motor_alerts_eq_filterMap, List.length_cons, List.range_succ_eq_map,
      List.filterMap_cons]
    have h0 : oracle_step motor_id (hd :: tl) b1 b2 b3 window_size 0 =
        some ⟨hd.1, motor_id, MotorFailure.PowerFailure⟩ := by
      simp [oracle_step, get_average_value_zero, averages_indicate_failure_nan]
    rw [h0]
    simp

/-- Witness for C10 at a concrete one-step buffer: the first (and only)
expected alert of a motor whose buffers hold one sample is a PowerFailure at
that sample's timestamp, produced from the NaN first-step averages. -/
theorem c10_first_step_average_is_nan_witness :
    (get_motor_alerts 7 [(5, 300)] [(5, 320)] [(5, 1500)] [(5, 40)] 3).head? =
      some ⟨5, 7, MotorFailure.PowerFailure⟩ :=
  c10_first_step_average_is_nan.2.2 7 [(5, 300)] [(5, 320)] [(5, 1500)] [(5, 40)] 3
    (by simp)

/-- C8 counterexample: the oracle does not reset any per-motor age.  With
constant readings (air 300, process 320, speed 1500, torque 40, window-size
parameter 300) the oracle records an Overstrain alert at step 1 and again at
step 2, one second later, although 1 s · 40 Nm is far below 11000: after the
recorded alert at time 1 the claimed age reset would forbid the Overstrain
at time 2.  (Step 0 is the NaN PowerFailure of C10.) -/
theorem c8_no_age_reset_counterexample :
    get_motor_alerts 0 [(0, 300), (1, 300), (2, 300)] [(0, 320), (1, 320), (2, 320)]
        [(0, 1500), (1, 1500), (2, 1500)] [(0, 40), (1, 40), (2, 40)] 300 =
      [⟨0, 0, MotorFailure.PowerFailure⟩, ⟨1, 0, MotorFailure.OverstrainFailure⟩,
        ⟨2, 0, MotorFailure.OverstrainFailure⟩]
    ∧ ¬((11000 : ℚ) < (2 - 1) * 40) := by
  constructor
  · rw [get_motor_alerts_eq_filterMap,
      show (([(0, 300), (1, 300), (2, 300)] : List (ℚ × ℚ)).length) = 3 from rfl,
      show List.range 3 = [0, 1, 2] from rfl]
    norm_num [List.filterMap_cons, oracle_step, get_average_value,
      averages_indicate_failure, sensor_data_indicates_failure,
      relevant_data_indicates_failure, rpm_to_rad, pi64, List.range',
      F.div, F.mul, F.sub, F.add, F.neg, F.abs, F.blt, F.ble]
  · norm_num

/-- C8 amended: on a positive evaluation the oracle records the expected
Alert of that step — unconditionally on any earlier alerts, since
`get_motor_alerts` keeps no per-motor age and resets nothing; there is in
particular no Overstrain refractory period. -/
theorem c8_amended_alert_recorded_without_reset (motor_id : ℕ)
    (b0 b1 b2 b3 : List (ℚ × ℚ)) (window_size i : ℕ) (a : Alert)
    (hi : i < b0.length)
    (h : oracle_step motor_id b0 b1 b2 b3 window_size i = some a) :
    a ∈ get_motor_alerts motor_id b0 b1 b2 b3 window_size := by
  rw [get_motor_alerts_eq_filterMap]
  exact List.mem_filterMap.mpr ⟨i, List.mem_range.mpr hi, h⟩

/-- Witness for the amended C8: the step-1 Overstrain of the constant-reading
run is recorded among the oracle's alerts. -/
theorem c8_amended_alert_recorded_without_reset_witness :
    (⟨1, 0, MotorFailure.OverstrainFailure⟩ : Alert) ∈
      get_motor_alerts 0 [(0, 300), (1, 300), (2, 300)] [(0, 320), (1, 320), (2, 320)]
        [(0, 1500), (1, 1500), (2, 1500)] [(0, 40), (1, 40), (2, 40)] 300 :=
  c8_amended_alert_recorded_without_reset 0
    [(0, 300), (1, 300), (2, 300)] [(0, 320), (1, 320), (2, 320)]
    [(0, 1500), (1, 1500), (2, 1500)] [(0, 40), (1, 40), (2, 40)] 300 1
    ⟨1, 0, MotorFailure.OverstrainFailure⟩ (by norm_num)
    (by norm_num [oracle_step, get_average_value, averages_indicate_failure,
      sensor_data_indicates_failure, relevant_data_indicates_failure, rpm_to_rad,
      pi64, List.range', F.div, F.mul, F.sub, F.add, F.neg, F.abs, F.blt, F.ble])

/-! ## Message framing (`utils::read_object`, src/utils/src/lib.rs lines
37-85, over the postcard wire format and its COBS accumulator).

Bytes are naturals below 256.  An f32 or f64 travels as its bit pattern, so
the wire records carry the patterns as naturals; a u32 travels as a
little-endian base-128 varint. -/

/-- k little-endian bytes of n. -/
def leBytes : ℕ → ℕ → List ℕ
  | 0, _ => []
  | k + 1, n => n % 256 :: leBytes k (n / 256)

/-- Read back k little-endian bytes. -/
def leDecode : ℕ → List ℕ → Option (ℕ × List ℕ)
  | 0, rest => some (0, rest)
  | _ + 1, [] => none
  | k + 1, b :: rest => (leDecode k rest).map (fun p => (b + 256 * p.1, p.2))

lemma leDecode_leBytes (k : ℕ) : ∀ (n : ℕ) (rest : List ℕ), n < 256 ^ k →
    leDecode k (leBytes k n ++ rest) = some (n, rest) := by
  induction k with
  | zero =>
    intro n rest h
    interval_cases n
    simp [leBytes, leDecode]
  | succ k ih =>
    intro n rest h
    have hn : n / 256 < 256 ^ k := by
      rw [Nat.div_lt_iff_lt_mul (by norm_num)]
      calc n < 256 ^ (k + 1) := h
        _ = 256 ^ k * 256 := by ring
    simp [leBytes, leDecode, ih _ rest hn, Nat.mod_add_div]

/-- The postcard varint encoding of an unsigned integer: little-endian
base-128 groups, high bit marking continuation. -/
def varintEncode (n : ℕ) : List ℕ :=
  if h : n < 128 then [n] else (n % 128 + 128) :: varintEncode (n / 128)
termination_by n
decreasing_by exact Nat.div_lt_self (by omega) (by norm_num)

/-- Read back a varint. -/
def varintDecode : List ℕ → Option (ℕ × List ℕ)
  | [] => none
  | b :: rest =>
    if b < 128 then some (b, rest)
    else (varintDecode rest).map (fun p => ((b - 128) + 128 * p.1, p.2))

lemma varintDecode_varintEncode (n : ℕ) (rest : List ℕ) :
    varintDecode (varintEncode n ++ rest) = some (n, rest) := by
  induction n using Nat.strong_induction_on with
  | _ n ih =>
    by_cases h : n < 128
    · rw [varintEncode]
      simp [h, varintDecode]
    · rw [varintEncode]
      simp only [h, dite_false, List.cons_append]
      rw [varintDecode]
      have h1 : ¬(n % 128 + 128 < 128) := by omega
      simp only [h1, if_false]
      rw [ih (n / 128) (Nat.div_lt_self (by omega) (by norm_num))]
      simp only [Option.map_some', Option.some.injEq, Prod.mk.injEq]
      exact ⟨by omega, trivial⟩

lemma varintEncode_length (k : ℕ) : ∀ n : ℕ, n < 128 ^ (k + 1) →
    (varintEncode n).length ≤ k + 1 := by
  induction k with
  | zero =>
    intro n h
    have h' : n < 128 := by simpa using h
    rw [varintEncode]
    simp [h']
  | succ k ih =>
    intro n h
    rw [varintEncode]
    by_cases hn : n < 128
    · simp [hn]
    · have hd : n / 128 < 128 ^ (k + 1) := by
        rw [Nat.div_lt_iff_lt_mul (by norm_num)]
        calc n < 128 ^ (k + 2) := h
          _ = 128 ^ (k + 1) * 128 := by ring
      simp only [hn, dite_false, List.length_cons]
      exact Nat.succ_le_succ (ih _ hd)

lemma varintEncode_bytes_lt (n : ℕ) : ∀ b ∈ varintEncode n, b < 256 := by
  induction n using Nat.strong_induction_on with
  | _ n ih =>
    intro b hb
    rw [varintEncode] at hb
    by_cases h : n < 128
    · simp [h] at hb
      omega
    · simp only [h, dite_false, List.mem_cons] at hb
      rcases hb with hb | hb
      · omega
      · exact ih (n / 128) (Nat.div_lt_self (by omega) (by norm_num)) b hb

/-- A `SensorMessage` as it crosses the wire: the f32 reading and f64
timestamp are carried by their bit patterns, the u32 sensor id by value. -/
structure SensorMessageWire where
  reading_bits : ℕ
  sensor_id : ℕ
  timestamp_bits : ℕ
deriving DecidableEq, Repr

/-- The postcard payload of a `SensorMessage`: fields in declaration order —
f32 as 4 little-endian bytes, u32 as a varint, f64 as 8 little-endian
bytes. -/
def serializeSensorMessage (m : SensorMessageWire) : List ℕ :=
  leBytes 4 m.reading_bits ++ varintEncode m.sensor_id ++ leBytes 8 m.timestamp_bits

/-- The postcard deserializer for a `SensorMessage` payload; returns the
record and the unread remainder. -/
def deserializeSensorMessage (bytes : List ℕ) :
    Option (SensorMessageWire × List ℕ) :=
  (leDecode 4 bytes).bind fun p1 =>
    (varintDecode p1.2).bind fun p2 =>
      (leDecode 8 p2.2).map fun p3 => (⟨p1.1, p2.1, p3.1⟩, p3.2)

lemma deserialize_serialize (m : SensorMessageWire) (rest : List ℕ)
    (h1 : m.reading_bits < 2 ^ 32) (h3 : m.timestamp_bits < 2 ^ 64) :
    deserializeSensorMessage (serializeSensorMessage m ++ rest) = some (m, rest) := by
  unfold serializeSensorMessage deserializeSensorMessage
  rw [List.append_assoc, List.append_assoc,
    leDecode_leBytes 4 m.reading_bits _ (by norm_num at h1 ⊢; omega)]
  simp only [Option.bind]
  rw [varintDecode_varintEncode]
  simp only [Option.bind]
  rw [leDecode_leBytes 8 m.timestamp_bits rest (by norm_num at h3 ⊢; omega)]
  simp only [Option.map_some']

lemma length_takeWhile_le (p : ℕ → Bool) (l : List ℕ) :
    (l.takeWhile p).length ≤ l.length := by
  have h := congrArg List.length (List.takeWhile_append_dropWhile p l)
  rw [List.length_append] at h
  omega

/-- COBS encoding, as used by `postcard::to_allocvec_cobs` (without the final
0x00 frame delimiter, which `to_allocvec_cobs` appends): each group of up to
254 non-zero bytes is preceded by its length + 1; a full 254-byte group gets
the marker 0xFF and consumes no zero; otherwise the group ends at a payload
zero, which is consumed. -/
def cobsEncode (l : List ℕ) : List ℕ :=
  if 254 ≤ (l.takeWhile (· != 0)).length then
    255 :: (l.take 254 ++ cobsEncode (l.drop 254))
  else
    ((l.takeWhile (· != 0)).length + 1) :: (l.takeWhile (· != 0) ++
      (if l.length ≤ (l.takeWhile (· != 0)).length then []
       else cobsEncode (l.drop ((l.takeWhile (· != 0)).length + 1))))
termination_by l.length
decreasing_by
  · have h1 : 254 ≤ l.length :=
      le_trans (by assumption) (length_takeWhile_le _ l)
    simp only [List.length_drop]
    omega
  · simp only [List.length_drop]
    omega

/-- COBS decoding of a delimiter-free frame. -/
def cobsDecode (l : List ℕ) : Option (List ℕ) :=
  match l with
  | [] => none
  | n :: rest =>
    if n = 0 then none
    else if rest.length < n - 1 then none
    else
      let group := rest.take (n - 1)
      let rest2 := rest.drop (n - 1)
      if rest2 = [] then some group
      else if n = 255 then (cobsDecode rest2).map (fun d => group ++ d)
      else (cobsDecode rest2).map (fun d => group ++ 0 :: d)
termination_by l.length
decreasing_by
  all_goals simp only [List.length_drop, List.length_cons]; omega

lemma cobsEncode_ne_nil (l : List ℕ) : cobsEncode l ≠ [] := by
  rw [cobsEncode]
  split <;> simp

lemma drop_length_takeWhile (p : ℕ → Bool) (l : List ℕ) :
    l.drop (l.takeWhile p).length = l.dropWhile p := by
  induction l with
  | nil => simp
  | cons x xs ih =>
    by_cases h : p x
    · simp [List.takeWhile_cons, List.dropWhile_cons, h, ih]
    · simp [List.takeWhile_cons, List.dropWhile_cons, h]

lemma dropWhile_head_not (p : ℕ → Bool) (l : List ℕ) (x : ℕ) (xs : List ℕ)
    (h : l.dropWhile p = x :: xs) : p x = false := by
  induction l with
  | nil => simp at h
  | cons y ys ih =>
    rw [List.dropWhile_cons] at h
    by_cases hy : p y = true
    · rw [if_pos hy] at h
      exact ih h
    · rw [if_neg hy] at h
      injection h with h1 h2
      rw [← h1]
      simpa using hy

lemma take_subset_takeWhile (p : ℕ → Bool) (l : List ℕ) (n : ℕ)
    (h : n ≤ (l.takeWhile p).length) : l.take n = (l.takeWhile p).take n := by
  induction l generalizing n with
  | nil => simp
  | cons x xs ih =>
    by_cases hx : p x
    · rw [List.takeWhile_cons_of_pos hx] at h ⊢
      match n with
      | 0 => simp
      | m + 1 =>
        simp only [List.take_succ_cons]
        rw [ih m (by simpa using h)]
    · rw [List.takeWhile_cons_of_neg hx] at h
      simp at h
      simp [h]

lemma take_length_takeWhile (p : ℕ → Bool) (l : List ℕ) :
    l.take (l.takeWhile p).length = l.takeWhile p := by
  rw [take_subset_takeWhile p l _ le_rfl, List.take_length]

lemma cobsDecode_cobsEncode (l : List ℕ) : cobsDecode (cobsEncode l) = some l := by
  suffices hmain : ∀ (n : ℕ) (l : List ℕ), l.length ≤ n →
      cobsDecode (cobsEncode l) = some l from hmain l.length l le_rfl
  intro n
  induction n with
  | zero =>
    intro l hl
    have hnil : l = [] := List.length_eq_zero.mp (Nat.le_zero.mp hl)
    subst hnil
    have h1 : cobsEncode [] = [1] := by
      rw [cobsEncode]; norm_num
    rw [h1, cobsDecode]
    norm_num
  | succ n ih =>
    intro l hl
    rw [cobsEncode]
    by_cases hb : 254 ≤ (l.takeWhile (· != 0)).length
    · rw [if_pos hb]
      have hlen : 254 ≤ l.length := le_trans hb (length_takeWhile_le _ l)
      have htake : (l.take 254).length = 254 := by
        rw [List.length_take]; omega
      rw [cobsDecode]
      rw [if_neg (by omega : ¬(255 : ℕ) = 0)]
      have hlen2 : ¬((l.take 254 ++ cobsEncode (l.drop 254)).length < 255 - 1) := by
        rw [List.length_append, htake]; omega
      rw [if_neg hlen2]
      have e1 : (l.take 254 ++ cobsEncode (l.drop 254)).take (255 - 1) = l.take 254 := by
        conv_lhs => rw [show (255 - 1 : ℕ) = (l.take 254).length from htake.symm]
        exact List.take_left _ _
      have e2 : (l.take 254 ++ cobsEncode (l.drop 254)).drop (255 - 1) =
          cobsEncode (l.drop 254) := by
        conv_lhs => rw [show (255 - 1 : ℕ) = (l.take 254).length from htake.symm]
        exact List.drop_left _ _
      simp only [e1, e2]
      rw [if_neg (cobsEncode_ne_nil _), if_pos trivial]
      rw [ih (l.drop 254) (by rw [List.length_drop]; omega)]
      simp [List.take_append_drop]
    · rw [if_neg hb]
      have htake_tw : l.take (l.takeWhile (· != 0)).length = l.takeWhile (· != 0) :=
        take_length_takeWhile _ l
      by_cases hd : l.length ≤ (l.takeWhile (· != 0)).length
      · rw [if_pos hd]
        have hltw : l = l.takeWhile (· != 0) := by
          conv_lhs => rw [← List.take_append_drop (l.takeWhile (· != 0)).length l]
          rw [List.drop_eq_nil_of_le hd, List.append_nil, htake_tw]
        rw [cobsDecode]
        rw [if_neg (by omega : ¬((l.takeWhile (· != 0)).length + 1 = 0))]
        rw [List.append_nil]
        rw [if_neg (by simp only [Nat.add_sub_cancel]; omega :
          ¬((l.takeWhile (· != 0)).length < (l.takeWhile (· != 0)).length + 1 - 1))]
        rw [if_pos (by simp [Nat.add_sub_cancel] :
          (l.takeWhile (· != 0)).drop ((l.takeWhile (· != 0)).length + 1 - 1) = ([] : List ℕ))]
        rw [show (l.takeWhile (· != 0)).take ((l.takeWhile (· != 0)).length + 1 - 1) =
          l.takeWhile (· != 0) by simp [Nat.add_sub_cancel]]
        rw [← hltw]
      · rw [if_neg hd]
        have hdrop : ∀ x xs, l.drop (l.takeWhile (· != 0)).length = x :: xs → x = 0 := by
          intro x xs hx
          have h0 := dropWhile_head_not (· != 0) l x xs
            (by rw [← drop_length_takeWhile (· != 0) l]; exact hx)
          simpa using h0
        rcases hcons : l.drop (l.takeWhile (· != 0)).length with _ | ⟨x, rest⟩
        · exfalso
          have := congrArg List.length hcons
          simp only [List.length_drop, List.length_nil] at this
          omega
        · have hx0 : x = 0 := hdrop x rest hcons
          subst hx0
          have hrest : l.drop ((l.takeWhile (· != 0)).length + 1) = rest := by
            have h1 : l.drop ((l.takeWhile (· != 0)).length + 1) =
                (l.drop (l.takeWhile (· != 0)).length).drop 1 := by
              rw [List.drop_drop, Nat.add_comm]
            rw [h1, hcons, List.drop_one, List.tail_cons]
          rw [hrest]
          rw [cobsDecode]
          rw [if_neg (by omega : ¬((l.takeWhile (· != 0)).length + 1 = 0))]
          rw [if_neg (by
            simp only [List.length_append, Nat.add_sub_cancel]; omega :
            ¬((l.takeWhile (· != 0) ++ cobsEncode rest).length <
              (l.takeWhile (· != 0)).length + 1 - 1))]
          have e1 : (l.takeWhile (· != 0) ++ cobsEncode rest).take
              ((l.takeWhile (· != 0)).length + 1 - 1) = l.takeWhile (· != 0) := by
            rw [Nat.add_sub_cancel]; exact List.take_left _ _
          have e2 : (l.takeWhile (· != 0) ++ cobsEncode rest).drop
              ((l.takeWhile (· != 0)).length + 1 - 1) = cobsEncode rest := by
            rw [Nat.add_sub_cancel]; exact List.drop_left _ _
          simp only [e1, e2]
          rw [if_neg (cobsEncode_ne_nil _)]
          rw [if_neg (by omega : ¬((l.takeWhile (· != 0)).length + 1 = 255))]
          have hrlen : rest.length ≤ n := by
            have hlc := congrArg List.length hcons
            simp only [List.length_drop, List.length_cons] at hlc
            have h3 : (l.takeWhile (· != 0)).length ≤ l.length := length_takeWhile_le _ l
            omega
          rw [ih rest hrlen]
          simp only [Option.map_some']
          have hfin : l = l.takeWhile (· != 0) ++ 0 :: rest := by
            conv_lhs => rw [← List.take_append_drop (l.takeWhile (· != 0)).length l]
            rw [hcons, htake_tw]
          rw [← hfin]

lemma leBytes_length (k : ℕ) : ∀ n : ℕ, (leBytes k n).length = k := by
  induction k with
  | zero => intro n; rfl
  | succ k ih => intro n; simp [leBytes, ih]

lemma cobsEncode_ne_zero (l : List ℕ) : ∀ b ∈ cobsEncode l, b ≠ 0 := by
  suffices hmain : ∀ (n : ℕ) (l : List ℕ), l.length ≤ n → ∀ b ∈ cobsEncode l, b ≠ 0 from
    hmain l.length l le_rfl
  intro n
  induction n with
  | zero =>
    intro l hl b hb
    have hnil : l = [] := List.length_eq_zero.mp (Nat.le_zero.mp hl)
    subst hnil
    have h1 : cobsEncode [] = [1] := by rw [cobsEncode]; norm_num
    rw [h1] at hb
    simp at hb
    omega
  | succ n ih =>
    intro l hl b hb
    rw [cobsEncode] at hb
    by_cases hc : 254 ≤ (l.takeWhile (· != 0)).length
    · rw [if_pos hc] at hb
      rcases List.mem_cons.mp hb with rfl | hb2
      · omega
      rcases List.mem_append.mp hb2 with hb3 | hb3
      · rw [take_subset_takeWhile _ _ _ hc] at hb3
        have hbtw : b ∈ l.takeWhile (· != 0) := List.take_subset _ _ hb3
        have hbp := List.mem_takeWhile_imp hbtw
        simpa using hbp
      · have hlen : 254 ≤ l.length := le_trans hc (length_takeWhile_le _ l)
        exact ih (l.drop 254) (by rw [List.length_drop]; omega) b hb3
    · rw [if_neg hc] at hb
      rcases List.mem_cons.mp hb with rfl | hb2
      · omega
      rcases List.mem_append.mp hb2 with hb3 | hb3
      · have hbp := List.mem_takeWhile_imp hb3
        simpa using hbp
      · by_cases hd : l.length ≤ (l.takeWhile (· != 0)).length
        · rw [if_pos hd] at hb3
          simp at hb3
        · rw [if_neg hd] at hb3
          exact ih _ (by rw [List.length_drop]; omega) b hb3

lemma cobsEncode_length_le (l : List ℕ) : (cobsEncode l).length ≤ 2 * l.length + 1 := by
  suffices hmain : ∀ (n : ℕ) (l : List ℕ), l.length ≤ n →
      (cobsEncode l).length ≤ 2 * l.length + 1 from hmain l.length l le_rfl
  intro n
  induction n with
  | zero =>
    intro l hl
    have hnil : l = [] := List.length_eq_zero.mp (Nat.le_zero.mp hl)
    subst hnil
    have h1 : cobsEncode [] = [1] := by rw [cobsEncode]; norm_num
    simp [h1]
  | succ n ih =>
    intro l hl
    rw [cobsEncode]
    by_cases hc : 254 ≤ (l.takeWhile (· != 0)).length
    · rw [if_pos hc]
      have hlen : 254 ≤ l.length := le_trans hc (length_takeWhile_le _ l)
      have hihd := ih (l.drop 254) (by rw [List.length_drop]; omega)
      simp only [List.length_cons, List.length_append, List.length_take,
        List.length_drop] at hihd ⊢
      omega
    · rw [if_neg hc]
      have htwl : (l.takeWhile (· != 0)).length ≤ l.length := length_takeWhile_le _ l
      by_cases hd : l.length ≤ (l.takeWhile (· != 0)).length
      · rw [if_pos hd]
        simp only [List.length_cons, List.length_append, List.length_nil]
        omega
      · rw [if_neg hd]
        have hihd := ih (l.drop ((l.takeWhile (· != 0)).length + 1))
          (by rw [List.length_drop]; omega)
        simp only [List.length_cons, List.length_append, List.length_drop] at hihd ⊢
        omega

/-- `read_object` from src/utils/src/lib.rs lines 37-85, over a byte list in
place of the TCP stream: bytes are read one at a time and fed to a
`CobsAccumulator<2048>`; at a frame delimiter the accumulated frame is COBS
decoded and deserialized, and on success the object is returned with the
unread bytes left in the stream; a deserialization failure (or an overfull
accumulator, which drops the partial frame) resumes at the next delimiter;
end of stream with no complete frame returns `none`. -/
def read_object_loop (buf : List ℕ) (input : List ℕ) :
    Option (SensorMessageWire × List ℕ) :=
  match input with
  | [] => none
  | b :: rest =>
    if b = 0 then
      match (cobsDecode buf).bind deserializeSensorMessage with
      | some p => some (p.1, rest)
      | none => read_object_loop [] rest
    else if 2048 ≤ buf.length then
      read_object_loop [] rest
    else
      read_object_loop (buf ++ [b]) rest
termination_by input.length
decreasing_by all_goals simp

/-- `read_object` starts with an empty accumulator. -/
def read_object (input : List ℕ) : Option (SensorMessageWire × List ℕ) :=
  read_object_loop [] input

/-- `postcard::to_allocvec_cobs`: the COBS-encoded payload followed by the
0x00 frame delimiter. -/
def to_allocvec_cobs (m : SensorMessageWire) : List ℕ :=
  cobsEncode (serializeSensorMessage m) ++ [0]

lemma read_object_loop_frame (frame : List ℕ) : ∀ (buf s : List ℕ),
    (∀ b ∈ frame, b ≠ 0) → buf.length + frame.length ≤ 2048 →
    read_object_loop buf (frame ++ 0 :: s) =
      match (cobsDecode (buf ++ frame)).bind deserializeSensorMessage with
      | some p => some (p.1, s)
      | none => read_object_loop [] s := by
  induction frame with
  | nil =>
    intro buf s _ _
    rw [List.nil_append, read_object_loop, if_pos rfl, List.append_nil]
  | cons f fs ih =>
    intro buf s hz hlen
    have hf : f ≠ 0 := hz f (List.mem_cons_self f fs)
    rw [List.cons_append, read_object_loop, if_neg hf]
    rw [if_neg (by simp only [List.length_cons] at hlen; omega : ¬2048 ≤ buf.length)]
    rw [ih (buf ++ [f]) s (fun b hb => hz b (List.mem_cons_of_mem _ hb))
      (by simp only [List.length_append, List.length_cons, List.length_nil] at hlen ⊢
          omega)]
    rw [List.append_assoc, List.singleton_append]

/-- C5: the framing reader round-trips with the encoder and preserves
trailing input.  Decoding the encoding of a record (reading and timestamp
given by their bit patterns, sensor id a u32) yields the record with an
exhausted stream; with any byte slice s appended after the frame, decoding
yields the record and leaves exactly s — a suffix of s — unread for the next
call. -/
theorem c5_framing_round_trip (r : SensorMessageWire) (s : List ℕ)
    (h1 : r.reading_bits < 2 ^ 32) (h2 : r.sensor_id < 2 ^ 32)
    (h3 : r.timestamp_bits < 2 ^ 64) :
    read_object (to_allocvec_cobs r) = some (r, [])
    ∧ read_object (to_allocvec_cobs r ++ s) = some (r, s)
    ∧ s <:+ s := by
  have hser_len : (serializeSensorMessage r).length ≤ 17 := by
    unfold serializeSensorMessage
    have hv := varintEncode_length 4 r.sensor_id (by norm_num at h2 ⊢; omega)
    simp only [List.length_append, leBytes_length]
    omega
  have hframe_nz : ∀ b ∈ cobsEncode (serializeSensorMessage r), b ≠ 0 :=
    cobsEncode_ne_zero _
  have hframe_len : (cobsEncode (serializeSensorMessage r)).length ≤ 2048 := by
    have hb := cobsEncode_length_le (serializeSensorMessage r)
    omega
  have key : ∀ s' : List ℕ,
      read_object (cobsEncode (serializeSensorMessage r) ++ 0 :: s') = some (r, s') := by
    intro s'
    unfold read_object
    rw [read_object_loop_frame _ [] s' hframe_nz (by simpa using hframe_len)]
    rw [List.nil_append, cobsDecode_cobsEncode]
    have hdeser : deserializeSensorMessage (serializeSensorMessage r) = some (r, []) := by
      have hd := deserialize_serialize r [] h1 h3
      rwa [List.append_nil] at hd
    simp [hdeser]
  refine ⟨?_, ?_, List.suffix_refl s⟩
  · exact key []
  · have hx : to_allocvec_cobs r ++ s =
        cobsEncode (serializeSensorMessage r) ++ 0 :: s := by
      unfold to_allocvec_cobs
      rw [List.append_assoc, List.singleton_append]
    rw [hx]
    exact key s

/-- Witness for C5 at a concrete record and trailing slice. -/
theorem c5_framing_round_trip_witness :
    read_object (to_allocvec_cobs ⟨3212836864, 5, 4638387860618067575⟩) =
      some (⟨3212836864, 5, 4638387860618067575⟩, [])
    ∧ read_object (to_allocvec_cobs ⟨3212836864, 5, 4638387860618067575⟩ ++ [7, 0, 9]) =
      some (⟨3212836864, 5, 4638387860618067575⟩, [7, 0, 9])
    ∧ [7, 0, 9] <:+ [7, 0, 9] :=
  c5_framing_round_trip ⟨3212836864, 5, 4638387860618067575⟩ [7, 0, 9]
    (by norm_num) (by norm_num) (by norm_num)
